import Mathlib

/-!
Verification of the GeoBrent dashboard analytics layer.

This file gives a shallow embedding, in Lean, of the analytics functions of the
GeoBrent repository's dashboard frontend:

* `calculateCorrelationMatrix`, `getTimePeriodAnalysis` from the
  CorrelationAnalysis component;
* `getFilteredChangePoints`, `getChangePointAnalysis`,
  `getConfidenceDistribution` from the ChangePointsView component.

Modelling conventions:

* JavaScript `Date` values are modelled as rational numbers of milliseconds
  since the Unix epoch (subtraction of two `Date`s in JS yields exactly this
  millisecond difference).
* JavaScript numbers are modelled as exact rationals `ℚ`; where the code takes
  a square root (`Math.sqrt`) the value is modelled in `ℝ` via `Real.sqrt`.
  A JS arithmetic result that is not a finite number (`Infinity`/`NaN`, which
  in this code can only arise from a division whose divisor is `0`) is
  modelled as `none` of an `Option` type.
* `Math.random()` is modelled by an explicit stream `rng : ℕ → ℚ` of draws,
  consumed in call order: the k-th call to `Math.random()` returns `rng k`.
  Determinism of a function is then the statement that its output does not
  depend on `rng`; dependence on `rng` exhibits unseeded nondeterminism.
* The `.toFixed(n)` string formatting the components apply to values just
  before rendering is presentation-layer formatting and is not modelled; the
  embedded records hold the exact numeric values being formatted.
-/

/-- A price observation: `{date, price}` from the oil-price series.
`date` is in epoch milliseconds. -/
structure PricePoint where
  date : ℚ
  price : ℚ
deriving DecidableEq

/-- A detected change point: `{date, confidence}` (epoch ms, score in [0,1]).
The JS objects also carry a `type` string, unused by the functions verified
here. -/
structure ChangePoint where
  date : ℚ
  confidence : ℚ
deriving DecidableEq

/-- A geopolitical event record; only its `date` field (epoch ms) is used by
the functions verified here. -/
structure GeoEvent where
  date : ℚ
deriving DecidableEq

/-! ## CorrelationAnalysis component -/

/-- The declared factor set of `calculateCorrelationMatrix` (its `factors`
array, in source order). -/
def factors : List String :=
  ["Price Volatility", "Event Frequency", "Change Point Frequency",
   "Geopolitical Events", "Economic Events", "Supply Disruptions"]

/-- One cell of the correlation matrix: `{x, y, value}` with `x`, `y` the
factor names and `value` the correlation number. The JS cell also carries
`correlation: value.toFixed(3)`, a formatted copy of `value`, not modelled
separately. -/
structure MatrixCell where
  x : String
  y : String
  value : ℚ
deriving DecidableEq

/-- The 36 index pairs `(i, j)` visited by the two nested `for` loops of
`calculateCorrelationMatrix`, in iteration order. -/
def matrixIndexPairs : List (ℕ × ℕ) :=
  ((List.range 6).map (fun i => (List.range 6).map (fun j => (i, j)))).flatten

/-- Loop body of `calculateCorrelationMatrix`: walks the index pairs in
iteration order, emitting one cell per pair, and threads `k`, the index of
the next `Math.random()` call, so that the k-th draw overall is `rng k`.
Diagonal cells have value `1.0` and consume no draw; off-diagonal cells take
the next draw rescaled to `[-1, 1]`. -/
def matrixCells (rng : ℕ → ℚ) : List (ℕ × ℕ) → ℕ → List MatrixCell
  | [], _ => []
  | ij :: rest, k =>
    if ij.1 = ij.2 then
      ⟨factors.getD ij.1 "", factors.getD ij.2 "", 1⟩ :: matrixCells rng rest k
    else
      ⟨factors.getD ij.1 "", factors.getD ij.2 "", rng k * 2 - 1⟩ :: matrixCells rng rest (k + 1)

/-- Shallow embedding of `calculateCorrelationMatrix` (CorrelationAnalysis
component). `hasData` models the `if (!data.correlationData) return [];`
guard. Each off-diagonal cell's value is `Math.random() * 2 - 1` (the source
comments it as a mock correlation). -/
def calculateCorrelationMatrix (hasData : Bool) (rng : ℕ → ℚ) : List MatrixCell :=
  if hasData = false then []
  else matrixCells rng matrixIndexPairs 0

/-- The four calendar periods of `getTimePeriodAnalysis`, as
`(name, start, end)` with the boundaries in epoch milliseconds
(UTC midnight, as `new Date('YYYY-MM-DD')` parses them). -/
def periodsList : List (String × ℚ × ℚ) :=
  [("2020-2021", 1577836800000, 1640908800000),
   ("2021-2022", 1609459200000, 1672444800000),
   ("2022-2023", 1640995200000, 1703980800000),
   ("2023-2024", 1672531200000, 1735603200000)]

/-- Sum of prices accumulated exactly as the source folds do:
`reduce((sum, p) => sum + p.price, 0)`. -/
def sumPrices (l : List PricePoint) : ℚ :=
  l.foldl (fun sum p => sum + p.price) 0

/-- Sum of squared deviations from a given center, as the source folds do:
`reduce((sum, p) => sum + Math.pow(p.price - avg, 2), 0)`. -/
def sqDevSum (l : List PricePoint) (avg : ℚ) : ℚ :=
  l.foldl (fun sum p => sum + (p.price - avg) ^ 2) 0

/-- One row of `getTimePeriodAnalysis`. The JS row holds `avgPrice` and
`volatility` as `.toFixed(2)` strings and `correlation` as a `.toFixed(3)`
string; the record holds the exact values being formatted. -/
structure PeriodRow where
  period : String
  eventCount : ℕ
  changePointCount : ℕ
  avgPrice : ℚ
  volatility : ℝ
  correlation : ℚ

/-- Shallow embedding of `getTimePeriodAnalysis` (CorrelationAnalysis
component). For each of the four fixed periods it counts the events and
change points in the period, averages the period's prices, takes the
population standard deviation of the period's prices, and fills the
`correlation` field with `Math.random() * 2 - 1` — the k-th period's row
consumes the k-th draw `rng k`. -/
noncomputable def getTimePeriodAnalysis (events : List GeoEvent)
    (changePoints : List ChangePoint) (prices : List PricePoint)
    (rng : ℕ → ℚ) : List PeriodRow :=
  periodsList.enum.map (fun ke =>
    let k := ke.1
    let pd := ke.2
    let periodEvents := events.filter
      (fun e => decide (pd.2.1 ≤ e.date ∧ e.date ≤ pd.2.2))
    let periodChangePoints := changePoints.filter
      (fun cp => decide (pd.2.1 ≤ cp.date ∧ cp.date ≤ pd.2.2))
    let periodPrices := prices.filter
      (fun p => decide (pd.2.1 ≤ p.date ∧ p.date ≤ pd.2.2))
    let avgPrice : ℚ :=
      if 0 < periodPrices.length then sumPrices periodPrices / periodPrices.length else 0
    let volatility : ℝ :=
      if 1 < periodPrices.length then
        Real.sqrt ((sqDevSum periodPrices avgPrice / periodPrices.length : ℚ) : ℝ)
      else 0
    { period := pd.1
      eventCount := periodEvents.length
      changePointCount := periodChangePoints.length
      avgPrice := avgPrice
      volatility := volatility
      correlation := rng k * 2 - 1 })

/-- C1: the claim says every correlation-matrix entry is a genuine Pearson
correlation over per-period aggregates of the data, never a placeholder or
random substitute. The code contradicts this (and its own intent as recorded
in the spec): `calculateCorrelationMatrix` never reads any price, event or
change-point data at all, and each off-diagonal entry is exactly the raw
`Math.random()` draw rescaled to `[-1, 1]`. Concretely, the second cell of
the matrix (Price Volatility vs Event Frequency) equals `rng 0 * 2 - 1` for
every random stream `rng`, so two runs whose draws differ produce different
matrices from identical data. -/
theorem calculateCorrelationMatrix_mock_entries :
    (∀ rng : ℕ → ℚ,
      (calculateCorrelationMatrix true rng).get? 1 =
        some ⟨"Price Volatility", "Event Frequency", rng 0 * 2 - 1⟩)
    ∧ calculateCorrelationMatrix true (fun _ => 0) ≠
        calculateCorrelationMatrix true (fun _ => 1/2) := by
  have h : ∀ rng : ℕ → ℚ,
      (calculateCorrelationMatrix true rng).get? 1 =
        some ⟨"Price Volatility", "Event Frequency", rng 0 * 2 - 1⟩ := by
    intro rng
    rfl
  refine ⟨h, ?_⟩
  intro hEq
  have h2 := (h (fun _ => 0)).symm.trans ((congrArg (fun l => l.get? 1) hEq).trans (h (fun _ => 1/2)))
  simp only [Option.some.injEq, MatrixCell.mk.injEq] at h2
  norm_num at h2

/-- C2: the claim says the correlation analysis is deterministic — two runs
on the same input data yield identical output. The code contradicts this:
the `correlation` column of `getTimePeriodAnalysis` is `Math.random()*2-1`
for each period row, so its value depends on the unseeded random stream and
not only on the input dataset. With the same (empty) events, change points
and prices, the draw stream that is constantly `0` and the one constantly
`1/2` give different correlation columns. -/
theorem getTimePeriodAnalysis_nondeterministic :
    (∀ rng : ℕ → ℚ,
      (getTimePeriodAnalysis [] [] [] rng).map PeriodRow.correlation =
        [rng 0 * 2 - 1, rng 1 * 2 - 1, rng 2 * 2 - 1, rng 3 * 2 - 1])
    ∧ (getTimePeriodAnalysis [] [] [] (fun _ => 0)).map PeriodRow.correlation ≠
        (getTimePeriodAnalysis [] [] [] (fun _ => 1/2)).map PeriodRow.correlation := by
  have h : ∀ rng : ℕ → ℚ,
      (getTimePeriodAnalysis [] [] [] rng).map PeriodRow.correlation =
        [rng 0 * 2 - 1, rng 1 * 2 - 1, rng 2 * 2 - 1, rng 3 * 2 - 1] := by
    intro rng
    rfl
  refine ⟨h, ?_⟩
  intro hEq
  rw [h, h] at hEq
  norm_num at hEq

/-! ## ChangePointsView component -/

/-- Milliseconds per day, the divisor `1000 * 60 * 60 * 24` the component
uses to convert a `Date` difference to a day count. -/
def msPerDay : ℚ := 1000 * 60 * 60 * 24

/-- The before-window of `getChangePointAnalysis`: the price points `p` with
`daysDiff = (cpDate - pDate) / 86400000` satisfying
`daysDiff >= 0 && daysDiff <= analysisWindow`. -/
def beforeWindow (prices : List PricePoint) (cpDate : ℚ) (analysisWindow : ℚ) :
    List PricePoint :=
  prices.filter (fun p =>
    decide (0 ≤ (cpDate - p.date) / msPerDay ∧ (cpDate - p.date) / msPerDay ≤ analysisWindow))

/-- The after-window of `getChangePointAnalysis`: the price points `p` with
`daysDiff = (pDate - cpDate) / 86400000` satisfying
`daysDiff >= 0 && daysDiff <= analysisWindow`. -/
def afterWindow (prices : List PricePoint) (cpDate : ℚ) (analysisWindow : ℚ) :
    List PricePoint :=
  prices.filter (fun p =>
    decide (0 ≤ (p.date - cpDate) / msPerDay ∧ (p.date - cpDate) / msPerDay ≤ analysisWindow))

/-- Window average exactly as the component computes it:
`reduce((sum, p) => sum + p.price, 0) / length`. -/
def avgOf (l : List PricePoint) : ℚ :=
  sumPrices l / l.length

/-- The radicand of the component's volatility:
`reduce((sum, p) => sum + Math.pow(p.price - avg, 2), 0) / length` with
`avg` the same window's average. -/
def varOf (l : List PricePoint) : ℚ :=
  sqDevSum l (avgOf l) / l.length

/-- Window volatility as the component computes it: `Math.sqrt` of
`varOf`. -/
noncomputable def volOf (l : List PricePoint) : ℝ :=
  Real.sqrt (varOf l)

/-- The `significance` strings `'High' | 'Medium' | 'Low'` assigned by
`getChangePointAnalysis`. -/
inductive Significance where
  | high
  | medium
  | low
deriving DecidableEq

/-- The significance rule on line 153 of the component:
`confidence > 0.9 ? 'High' : confidence > 0.8 ? 'Medium' : 'Low'`. -/
def significanceOf (confidence : ℚ) : Significance :=
  if 9/10 < confidence then Significance.high
  else if 8/10 < confidence then Significance.medium
  else Significance.low

/-- Result object of `getChangePointAnalysis`. The JS object holds each
numeric field as a `.toFixed(2)` string; the record holds the exact numeric
values being formatted. `priceChange` and `volatilityChange` are `Option`s:
`none` models a JS division whose divisor is `0`, which yields a number that
is not finite (`Infinity` or `NaN`) rather than a thrown error. For
`volatilityChange` the divisor is `volatilityBefore = Math.sqrt(varOf)`,
which is zero exactly when the radicand `varOf` (a mean of squares, hence
nonnegative) is zero, so the test is placed on `varOf`. -/
structure CPAnalysis where
  avgBefore : ℚ
  avgAfter : ℚ
  priceChange : Option ℚ
  volatilityBefore : ℝ
  volatilityAfter : ℝ
  volatilityChange : Option ℝ
  significance : Significance

/-- Shallow embedding of `getChangePointAnalysis` (ChangePointsView
component): build both windows around the change-point date, return no
analysis (`null` in JS, `none` here) when either window has fewer than 10
points, and otherwise return the before/after averages, population
standard deviations of price, their percent changes, and the
confidence-derived significance. -/
noncomputable def getChangePointAnalysis (prices : List PricePoint)
    (changePoint : ChangePoint) (analysisWindow : ℚ) : Option CPAnalysis :=
  if (beforeWindow prices changePoint.date analysisWindow).length < 10 ∨
      (afterWindow prices changePoint.date analysisWindow).length < 10 then
    none
  else
    some
      { avgBefore := avgOf (beforeWindow prices changePoint.date analysisWindow)
        avgAfter := avgOf (afterWindow prices changePoint.date analysisWindow)
        priceChange :=
          if avgOf (beforeWindow prices changePoint.date analysisWindow) = 0 then none
          else some
            ((avgOf (afterWindow prices changePoint.date analysisWindow) -
                avgOf (beforeWindow prices changePoint.date analysisWindow)) /
              avgOf (beforeWindow prices changePoint.date analysisWindow) * 100)
        volatilityBefore := volOf (beforeWindow prices changePoint.date analysisWindow)
        volatilityAfter := volOf (afterWindow prices changePoint.date analysisWindow)
        volatilityChange :=
          if varOf (beforeWindow prices changePoint.date analysisWindow) = 0 then none
          else some
            ((volOf (afterWindow prices changePoint.date analysisWindow) -
                volOf (beforeWindow prices changePoint.date analysisWindow)) /
              volOf (beforeWindow prices changePoint.date analysisWindow) * 100)
        significance := significanceOf changePoint.confidence }

/-- Shallow embedding of `getFilteredChangePoints`:
`changePoints.filter(cp => cp.confidence >= confidenceThreshold)`. -/
def getFilteredChangePoints (changePoints : List ChangePoint) (confidenceThreshold : ℚ) :
    List ChangePoint :=
  changePoints.filter (fun cp => decide (confidenceThreshold ≤ cp.confidence))

/-- The confidence-threshold choices offered by the Min Confidence select of
the ChangePointsView (options 50% to 90%). -/
def confidenceThresholdOptions : List ℚ :=
  [1/2, 3/5, 7/10, 4/5, 9/10]

/-- The five bin counters of `getConfidenceDistribution`, for the ranges
0.5-0.6, 0.6-0.7, 0.7-0.8, 0.8-0.9, 0.9-1.0 (in that order). -/
structure ConfBins where
  bin0 : ℕ
  bin1 : ℕ
  bin2 : ℕ
  bin3 : ℕ
  bin4 : ℕ
deriving DecidableEq

/-- Total count across the five bins. -/
def binTotal (b : ConfBins) : ℕ :=
  b.bin0 + b.bin1 + b.bin2 + b.bin3 + b.bin4

/-- The if/else-if chain in the `forEach` of `getConfidenceDistribution`:
bump the first bin whose range contains the confidence; a confidence below
0.5 matches no branch and the bins are left unchanged. The last branch tests
only `confidence >= 0.9` (no upper bound). -/
def bumpBin (b : ConfBins) (c : ℚ) : ConfBins :=
  if 1/2 ≤ c ∧ c < 3/5 then { b with bin0 := b.bin0 + 1 }
  else if 3/5 ≤ c ∧ c < 7/10 then { b with bin1 := b.bin1 + 1 }
  else if 7/10 ≤ c ∧ c < 4/5 then { b with bin2 := b.bin2 + 1 }
  else if 4/5 ≤ c ∧ c < 9/10 then { b with bin3 := b.bin3 + 1 }
  else if 9/10 ≤ c then { b with bin4 := b.bin4 + 1 }
  else b

/-- Shallow embedding of `getConfidenceDistribution`: fold the bump chain
over all change points, starting from all-zero counters. -/
def getConfidenceDistribution (changePoints : List ChangePoint) : ConfBins :=
  changePoints.foldl (fun b cp => bumpBin b cp.confidence) ⟨0, 0, 0, 0, 0⟩

/-! ## Specification-side statistics

These definitions follow the spec's words (mean, population standard
deviation, day-difference window predicates) and are compared against the
code-side definitions above in the theorems. -/

/-- The prices carried by a list of price points. -/
def pricesOf (l : List PricePoint) : List ℚ :=
  l.map PricePoint.price

/-- Arithmetic mean of a list of rationals. -/
def mean (xs : List ℚ) : ℚ :=
  xs.sum / xs.length

/-- Population variance: mean squared deviation from the mean (divisor `n`,
not `n - 1`). -/
def popVariance (xs : List ℚ) : ℚ :=
  (xs.map (fun x => (x - mean xs) ^ 2)).sum / xs.length

/-- Population standard deviation: square root of the population
variance. -/
noncomputable def popStdDev (xs : List ℚ) : ℝ :=
  Real.sqrt (popVariance xs)

/-! ## Bridging lemmas between the code-side folds and the spec-side
statistics -/

/-- A left fold accumulating `f` over a list is the accumulated sum of the
mapped list. -/
lemma foldl_add_eq (f : PricePoint → ℚ) :
    ∀ (l : List PricePoint) (c : ℚ),
      l.foldl (fun s p => s + f p) c = c + (l.map f).sum := by
  intro l
  induction l with
  | nil => intro c; simp
  | cons p t ih =>
    intro c
    rw [List.foldl_cons, ih, List.map_cons, List.sum_cons]
    ring

/-- The component's price-sum fold is the sum of the window's prices. -/
lemma sumPrices_eq (l : List PricePoint) : sumPrices l = (pricesOf l).sum := by
  simpa [sumPrices, pricesOf] using foldl_add_eq PricePoint.price l 0

/-- The component's squared-deviation fold is the sum of squared deviations
of the window's prices. -/
lemma sqDevSum_eq (l : List PricePoint) (a : ℚ) :
    sqDevSum l a = ((pricesOf l).map (fun x => (x - a) ^ 2)).sum := by
  simpa [sqDevSum, pricesOf, List.map_map, Function.comp]
    using foldl_add_eq (fun p => (p.price - a) ^ 2) l 0

/-- The component's window average is the arithmetic mean of the window's
prices. -/
lemma avgOf_eq (l : List PricePoint) : avgOf l = mean (pricesOf l) := by
  simp [avgOf, mean, sumPrices_eq, pricesOf]

/-- The component's volatility radicand is the population variance of the
window's prices. -/
lemma varOf_eq (l : List PricePoint) : varOf l = popVariance (pricesOf l) := by
  simp [varOf, popVariance, sqDevSum_eq, avgOf_eq, pricesOf]

/-- The component's volatility is the population standard deviation of the
window's prices. -/
lemma volOf_eq (l : List PricePoint) : volOf l = popStdDev (pricesOf l) := by
  rw [volOf, popStdDev, varOf_eq]

/-- Population variance is nonnegative. -/
lemma popVariance_nonneg (xs : List ℚ) : 0 ≤ popVariance xs := by
  apply div_nonneg
  · apply List.sum_nonneg
    intro x hx
    simp only [List.mem_map] at hx
    obtain ⟨y, _, rfl⟩ := hx
    positivity
  · positivity

/-- The mean of a nonempty list of positive rationals is positive. -/
lemma mean_pos_of_pos (xs : List ℚ) (hne : xs ≠ []) (h : ∀ x ∈ xs, 0 < x) :
    0 < mean xs := by
  apply div_pos (List.sum_pos xs h hne)
  have : 0 < xs.length := List.length_pos.mpr hne
  exact_mod_cast this

/-- When both windows reach the 10-point floor, `getChangePointAnalysis`
succeeds with the record built from the window statistics. -/
lemma getChangePointAnalysis_of_le (prices : List PricePoint) (cp : ChangePoint) (w : ℚ)
    (hb : 10 ≤ (beforeWindow prices cp.date w).length)
    (ha : 10 ≤ (afterWindow prices cp.date w).length) :
    getChangePointAnalysis prices cp w =
      some
        { avgBefore := avgOf (beforeWindow prices cp.date w)
          avgAfter := avgOf (afterWindow prices cp.date w)
          priceChange :=
            if avgOf (beforeWindow prices cp.date w) = 0 then none
            else some
              ((avgOf (afterWindow prices cp.date w) -
                  avgOf (beforeWindow prices cp.date w)) /
                avgOf (beforeWindow prices cp.date w) * 100)
          volatilityBefore := volOf (beforeWindow prices cp.date w)
          volatilityAfter := volOf (afterWindow prices cp.date w)
          volatilityChange :=
            if varOf (beforeWindow prices cp.date w) = 0 then none
            else some
              ((volOf (afterWindow prices cp.date w) -
                  volOf (beforeWindow prices cp.date w)) /
                volOf (beforeWindow prices cp.date w) * 100)
          significance := significanceOf cp.confidence } := by
  rw [getChangePointAnalysis, if_neg]
  omega

/-! ## Concrete input data used in scenario conjuncts and witnesses -/

/-- Epoch-millisecond timestamp of day `k` relative to an anchor at epoch
time `0`. -/
def dayMs (k : ℤ) : ℚ := k * 86400000

/-- A price series with exactly 9 points in the 90-day before-window of an
anchor at time `0` (days -1..-9) and 40 points in its after-window
(days 1..40), all at price 50: the below-floor scenario of the spec. -/
def c3Prices : List PricePoint :=
  ((List.range 9).map (fun k => ⟨dayMs (-(k + 1 : ℤ)), 50⟩)) ++
  ((List.range 40).map (fun k => ⟨dayMs (k + 1 : ℤ), 50⟩))

/-- A price series with exactly 10 points in each 90-day window of an anchor
at time `0`: before-window prices five at 47 and five at 53 (mean 50,
population variance 9), after-window prices five at 57 and five at 63
(mean 60, population variance 9). -/
def wPrices : List PricePoint :=
  ((List.range 5).map (fun k => ⟨dayMs (-(k + 1 : ℤ)), 47⟩)) ++
  ((List.range 5).map (fun k => ⟨dayMs (-(k + 6 : ℤ)), 53⟩)) ++
  ((List.range 5).map (fun k => ⟨dayMs (k + 1 : ℤ), 57⟩)) ++
  ((List.range 5).map (fun k => ⟨dayMs (k + 6 : ℤ), 63⟩))

/-- A price series with 10 points in each 90-day window of an anchor at time
`0`, the before-window prices all equal to 50 (population variance 0) and
the after-window prices five at 40 and five at 60 (population
variance 100). -/
def zPrices : List PricePoint :=
  ((List.range 10).map (fun k => ⟨dayMs (-(k + 1 : ℤ)), 50⟩)) ++
  ((List.range 5).map (fun k => ⟨dayMs (k + 1 : ℤ), 40⟩)) ++
  ((List.range 5).map (fun k => ⟨dayMs (k + 6 : ℤ), 60⟩))

/-- C3: `getChangePointAnalysis` returns no analysis exactly when the
before-window or the after-window contains fewer than 10 price points, and
succeeds otherwise; in particular, on a series with exactly 9 points before
the anchor and 40 after (all within the window) it returns no analysis. -/
theorem getChangePointAnalysis_insufficient_iff :
    (∀ (prices : List PricePoint) (cp : ChangePoint) (w : ℚ),
      getChangePointAnalysis prices cp w = none ↔
        (beforeWindow prices cp.date w).length < 10 ∨
          (afterWindow prices cp.date w).length < 10)
    ∧ getChangePointAnalysis c3Prices ⟨0, 7/10⟩ 90 = none
    ∧ (beforeWindow c3Prices 0 90).length = 9
    ∧ (afterWindow c3Prices 0 90).length = 40 := by
  have main : ∀ (prices : List PricePoint) (cp : ChangePoint) (w : ℚ),
      getChangePointAnalysis prices cp w = none ↔
        (beforeWindow prices cp.date w).length < 10 ∨
          (afterWindow prices cp.date w).length < 10 := by
    intro prices cp w
    by_cases h : (beforeWindow prices cp.date w).length < 10 ∨
        (afterWindow prices cp.date w).length < 10
    · rw [getChangePointAnalysis, if_pos h]
      simp [h]
    · rw [getChangePointAnalysis, if_neg h]
      simp [h]
  have hlen : (beforeWindow c3Prices 0 90).length = 9 := by
    norm_num [beforeWindow, msPerDay, dayMs, c3Prices, List.filter_cons, List.range_succ]
  refine ⟨main, ?_, hlen, ?_⟩
  · exact (main c3Prices ⟨0, 7/10⟩ 90).mpr (Or.inl (by rw [show (⟨0, 7/10⟩ : ChangePoint).date = 0 from rfl, hlen]; omega))
  · norm_num [afterWindow, msPerDay, dayMs, c3Prices, List.filter_cons, List.range_succ]

/-- C5: membership in the windows of `getChangePointAnalysis` is exactly the
spec's day-difference condition: the before-window holds the points of the
series with `0 ≤ anchor_date - date ≤ window_days` and the after-window
those with `0 ≤ date - anchor_date ≤ window_days` (dates measured in days:
epoch milliseconds divided by `msPerDay`), both inclusive of the anchor
date itself. -/
theorem window_membership_iff :
    ∀ (prices : List PricePoint) (anchor w : ℚ) (p : PricePoint),
      (p ∈ beforeWindow prices anchor w ↔
        p ∈ prices ∧ 0 ≤ anchor / msPerDay - p.date / msPerDay ∧
          anchor / msPerDay - p.date / msPerDay ≤ w)
      ∧ (p ∈ afterWindow prices anchor w ↔
        p ∈ prices ∧ 0 ≤ p.date / msPerDay - anchor / msPerDay ∧
          p.date / msPerDay - anchor / msPerDay ≤ w) := by
  intro prices anchor w p
  constructor
  · rw [beforeWindow, List.mem_filter]
    simp [sub_div]
  · rw [afterWindow, List.mem_filter]
    simp [sub_div]

/-- On success with a nonzero before-average, the `priceChange` field is the
spec's percent-change formula over the window means. -/
lemma priceChange_eq (prices : List PricePoint) (cp : ChangePoint) (w : ℚ)
    (hb : 10 ≤ (beforeWindow prices cp.date w).length)
    (ha : 10 ≤ (afterWindow prices cp.date w).length)
    (h0 : mean (pricesOf (beforeWindow prices cp.date w)) ≠ 0) :
    Option.map CPAnalysis.priceChange (getChangePointAnalysis prices cp w) =
      some (some ((mean (pricesOf (afterWindow prices cp.date w)) -
          mean (pricesOf (beforeWindow prices cp.date w))) /
        mean (pricesOf (beforeWindow prices cp.date w)) * 100)) := by
  rw [getChangePointAnalysis_of_le prices cp w hb ha, Option.map_some']
  dsimp only
  simp only [avgOf_eq]
  rw [if_neg h0]

/-- On success with a nonzero before-variance, the `volatilityChange` field
is the spec's percent-change formula over the windows' population standard
deviations. -/
lemma volatilityChange_eq (prices : List PricePoint) (cp : ChangePoint) (w : ℚ)
    (hb : 10 ≤ (beforeWindow prices cp.date w).length)
    (ha : 10 ≤ (afterWindow prices cp.date w).length)
    (hv : popVariance (pricesOf (beforeWindow prices cp.date w)) ≠ 0) :
    Option.map CPAnalysis.volatilityChange (getChangePointAnalysis prices cp w) =
      some (some ((popStdDev (pricesOf (afterWindow prices cp.date w)) -
          popStdDev (pricesOf (beforeWindow prices cp.date w))) /
        popStdDev (pricesOf (beforeWindow prices cp.date w)) * 100)) := by
  rw [getChangePointAnalysis_of_le prices cp w hb ha, Option.map_some']
  dsimp only
  simp only [varOf_eq, volOf_eq]
  rw [if_neg hv]

/-- On success, the `significance` field is the confidence-derived bucket. -/
lemma significance_eq (prices : List PricePoint) (cp : ChangePoint) (w : ℚ)
    (hb : 10 ≤ (beforeWindow prices cp.date w).length)
    (ha : 10 ≤ (afterWindow prices cp.date w).length) :
    Option.map CPAnalysis.significance (getChangePointAnalysis prices cp w) =
      some (significanceOf cp.confidence) := by
  rw [getChangePointAnalysis_of_le prices cp w hb ha, Option.map_some']

/-- C4: on any succeeding window analysis whose before-window average is
positive, `priceChange` is `(avg_after - avg_before) / avg_before * 100`
over the window means, and (whenever its divisor — the before-window
standard deviation — is nonzero, i.e. the before variance is nonzero; the
degenerate zero-divisor case is the subject of the division-by-zero claim)
`volatilityChange` is the analogous formula over the windows' population
standard deviations of price. -/
theorem getChangePointAnalysis_formulas :
    ∀ (prices : List PricePoint) (cp : ChangePoint) (w : ℚ),
      10 ≤ (beforeWindow prices cp.date w).length →
      10 ≤ (afterWindow prices cp.date w).length →
      0 < mean (pricesOf (beforeWindow prices cp.date w)) →
      Option.map CPAnalysis.priceChange (getChangePointAnalysis prices cp w) =
        some (some ((mean (pricesOf (afterWindow prices cp.date w)) -
            mean (pricesOf (beforeWindow prices cp.date w))) /
          mean (pricesOf (beforeWindow prices cp.date w)) * 100))
      ∧ (popVariance (pricesOf (beforeWindow prices cp.date w)) ≠ 0 →
        Option.map CPAnalysis.volatilityChange (getChangePointAnalysis prices cp w) =
          some (some ((popStdDev (pricesOf (afterWindow prices cp.date w)) -
              popStdDev (pricesOf (beforeWindow prices cp.date w))) /
            popStdDev (pricesOf (beforeWindow prices cp.date w)) * 100))) := by
  intro prices cp w hb ha hm
  exact ⟨priceChange_eq prices cp w hb ha (ne_of_gt hm),
    fun hv => volatilityChange_eq prices cp w hb ha hv⟩

/-- Witness for C4 on the concrete series `wPrices` (before mean 50,
variance 9; after mean 60, variance 9), anchor at time 0, 90-day window. -/
theorem getChangePointAnalysis_formulas_witness :
    10 ≤ (beforeWindow wPrices (0 : ℚ) 90).length ∧
    10 ≤ (afterWindow wPrices (0 : ℚ) 90).length ∧
    0 < mean (pricesOf (beforeWindow wPrices (0 : ℚ) 90)) ∧
    popVariance (pricesOf (beforeWindow wPrices (0 : ℚ) 90)) ≠ 0 ∧
    Option.map CPAnalysis.priceChange (getChangePointAnalysis wPrices ⟨0, 7/10⟩ 90) =
      some (some ((mean (pricesOf (afterWindow wPrices (0 : ℚ) 90)) -
          mean (pricesOf (beforeWindow wPrices (0 : ℚ) 90))) /
        mean (pricesOf (beforeWindow wPrices (0 : ℚ) 90)) * 100)) ∧
    Option.map CPAnalysis.volatilityChange (getChangePointAnalysis wPrices ⟨0, 7/10⟩ 90) =
      some (some ((popStdDev (pricesOf (afterWindow wPrices (0 : ℚ) 90)) -
          popStdDev (pricesOf (beforeWindow wPrices (0 : ℚ) 90))) /
        popStdDev (pricesOf (beforeWindow wPrices (0 : ℚ) 90)) * 100)) := by
  have hb : 10 ≤ (beforeWindow wPrices (0 : ℚ) 90).length := by
    norm_num [beforeWindow, msPerDay, dayMs, wPrices, List.filter_cons, List.range_succ]
  have ha : 10 ≤ (afterWindow wPrices (0 : ℚ) 90).length := by
    norm_num [afterWindow, msPerDay, dayMs, wPrices, List.filter_cons, List.range_succ]
  have hm : 0 < mean (pricesOf (beforeWindow wPrices (0 : ℚ) 90)) := by
    norm_num [mean, pricesOf, beforeWindow, msPerDay, dayMs, wPrices, List.filter_cons,
      List.range_succ]
  have hv : popVariance (pricesOf (beforeWindow wPrices (0 : ℚ) 90)) ≠ 0 := by
    norm_num [popVariance, mean, pricesOf, beforeWindow, msPerDay, dayMs, wPrices,
      List.filter_cons, List.range_succ]
  have h := getChangePointAnalysis_formulas wPrices ⟨0, 7/10⟩ 90 hb ha hm
  exact ⟨hb, ha, hm, hv, h.1, h.2 hv⟩

/-- C6: on any succeeding window analysis, the significance is derived from
the change point's confidence: above 0.9 gives High, in (0.8, 0.9] gives
Medium, and at or below 0.8 gives Low. -/
theorem significance_from_confidence :
    ∀ (prices : List PricePoint) (cp : ChangePoint) (w : ℚ),
      10 ≤ (beforeWindow prices cp.date w).length →
      10 ≤ (afterWindow prices cp.date w).length →
      (9/10 < cp.confidence →
        Option.map CPAnalysis.significance (getChangePointAnalysis prices cp w) =
          some Significance.high)
      ∧ (8/10 < cp.confidence → cp.confidence ≤ 9/10 →
        Option.map CPAnalysis.significance (getChangePointAnalysis prices cp w) =
          some Significance.medium)
      ∧ (cp.confidence ≤ 8/10 →
        Option.map CPAnalysis.significance (getChangePointAnalysis prices cp w) =
          some Significance.low) := by
  intro prices cp w hb ha
  have hs := significance_eq prices cp w hb ha
  refine ⟨?_, ?_, ?_⟩
  · intro h
    rw [hs, significanceOf, if_pos h]
  · intro h h9
    rw [hs, significanceOf, if_neg (by linarith), if_pos h]
  · intro h
    rw [hs, significanceOf, if_neg (by linarith), if_neg (by linarith)]

/-- Witness for C6 on `wPrices` with a change point of confidence 0.95
(High branch). -/
theorem significance_from_confidence_witness :
    10 ≤ (beforeWindow wPrices (0 : ℚ) 90).length ∧
    10 ≤ (afterWindow wPrices (0 : ℚ) 90).length ∧
    (9/10 : ℚ) < 95/100 ∧
    Option.map CPAnalysis.significance (getChangePointAnalysis wPrices ⟨0, 95/100⟩ 90) =
      some Significance.high := by
  have hb : 10 ≤ (beforeWindow wPrices (0 : ℚ) 90).length := by
    norm_num [beforeWindow, msPerDay, dayMs, wPrices, List.filter_cons, List.range_succ]
  have ha : 10 ≤ (afterWindow wPrices (0 : ℚ) 90).length := by
    norm_num [afterWindow, msPerDay, dayMs, wPrices, List.filter_cons, List.range_succ]
  exact ⟨hb, ha, by norm_num,
    (significance_from_confidence wPrices ⟨0, 95/100⟩ 90 hb ha).1 (by norm_num)⟩

/-- C7: on a series of positive prices, any succeeding window analysis
returns a `priceChange` that is exactly the percent change of the window
means and whose sign (positive, negative, or zero) agrees with the sign of
`avg_after - avg_before`. -/
theorem priceChange_sign_matches :
    ∀ (prices : List PricePoint) (cp : ChangePoint) (w : ℚ),
      (∀ p ∈ prices, 0 < p.price) →
      10 ≤ (beforeWindow prices cp.date w).length →
      10 ≤ (afterWindow prices cp.date w).length →
      Option.map CPAnalysis.priceChange (getChangePointAnalysis prices cp w) =
        some (some ((mean (pricesOf (afterWindow prices cp.date w)) -
            mean (pricesOf (beforeWindow prices cp.date w))) /
          mean (pricesOf (beforeWindow prices cp.date w)) * 100))
      ∧ (0 < (mean (pricesOf (afterWindow prices cp.date w)) -
            mean (pricesOf (beforeWindow prices cp.date w))) /
          mean (pricesOf (beforeWindow prices cp.date w)) * 100 ↔
        0 < mean (pricesOf (afterWindow prices cp.date w)) -
            mean (pricesOf (beforeWindow prices cp.date w)))
      ∧ ((mean (pricesOf (afterWindow prices cp.date w)) -
            mean (pricesOf (beforeWindow prices cp.date w))) /
          mean (pricesOf (beforeWindow prices cp.date w)) * 100 < 0 ↔
        mean (pricesOf (afterWindow prices cp.date w)) -
            mean (pricesOf (beforeWindow prices cp.date w)) < 0)
      ∧ ((mean (pricesOf (afterWindow prices cp.date w)) -
            mean (pricesOf (beforeWindow prices cp.date w))) /
          mean (pricesOf (beforeWindow prices cp.date w)) * 100 = 0 ↔
        mean (pricesOf (afterWindow prices cp.date w)) -
            mean (pricesOf (beforeWindow prices cp.date w)) = 0) := by
  intro prices cp w hpos hb ha
  have hposB : ∀ x ∈ pricesOf (beforeWindow prices cp.date w), 0 < x := by
    intro x hx
    simp only [pricesOf, List.mem_map] at hx
    obtain ⟨p, hp, rfl⟩ := hx
    exact hpos p (List.mem_of_mem_filter hp)
  have hne : pricesOf (beforeWindow prices cp.date w) ≠ [] := by
    intro hcon
    have := congrArg List.length hcon
    simp only [pricesOf, List.length_map, List.length_nil] at this
    omega
  have hm : 0 < mean (pricesOf (beforeWindow prices cp.date w)) :=
    mean_pos_of_pos _ hne hposB
  set d := mean (pricesOf (afterWindow prices cp.date w)) -
    mean (pricesOf (beforeWindow prices cp.date w)) with hd
  set mB := mean (pricesOf (beforeWindow prices cp.date w)) with hmB
  have hk : 0 < 100 / mB := by positivity
  have hrw : d / mB * 100 = d * (100 / mB) := by ring
  refine ⟨priceChange_eq prices cp w hb ha (ne_of_gt hm), ?_, ?_, ?_⟩
  · rw [hrw]
    constructor
    · intro h
      rcases mul_pos_iff.mp h with ⟨h1, _⟩ | ⟨_, h2⟩
      · exact h1
      · linarith
    · intro h
      exact mul_pos h hk
  · rw [hrw]
    constructor
    · intro h
      rcases mul_neg_iff.mp h with ⟨_, h2⟩ | ⟨h1, _⟩
      · linarith
      · exact h1
    · intro h
      exact mul_neg_of_neg_of_pos h hk
  · rw [hrw, mul_eq_zero]
    constructor
    · intro h
      rcases h with h | h
      · exact h
      · exact absurd h (ne_of_gt hk)
    · intro h
      exact Or.inl h

/-- Witness for C7 on the positive-price series `wPrices` (before mean 50,
after mean 60), anchor at time 0, 90-day window. -/
theorem priceChange_sign_matches_witness :
    (∀ p ∈ wPrices, 0 < p.price) ∧
    10 ≤ (beforeWindow wPrices (0 : ℚ) 90).length ∧
    10 ≤ (afterWindow wPrices (0 : ℚ) 90).length ∧
    (0 < (mean (pricesOf (afterWindow wPrices (0 : ℚ) 90)) -
        mean (pricesOf (beforeWindow wPrices (0 : ℚ) 90))) /
      mean (pricesOf (beforeWindow wPrices (0 : ℚ) 90)) * 100 ↔
    0 < mean (pricesOf (afterWindow wPrices (0 : ℚ) 90)) -
        mean (pricesOf (beforeWindow wPrices (0 : ℚ) 90))) := by
  have hpos : ∀ p ∈ wPrices, 0 < p.price := by
    intro p hp
    simp only [wPrices, List.mem_append, List.mem_map] at hp
    rcases hp with ((⟨k, -, rfl⟩ | ⟨k, -, rfl⟩) | ⟨k, -, rfl⟩) | ⟨k, -, rfl⟩ <;> norm_num
  have hb : 10 ≤ (beforeWindow wPrices (0 : ℚ) 90).length := by
    norm_num [beforeWindow, msPerDay, dayMs, wPrices, List.filter_cons, List.range_succ]
  have ha : 10 ≤ (afterWindow wPrices (0 : ℚ) 90).length := by
    norm_num [afterWindow, msPerDay, dayMs, wPrices, List.filter_cons, List.range_succ]
  exact ⟨hpos, hb, ha,
    (priceChange_sign_matches wPrices ⟨0, 7/10⟩ 90 hpos hb ha).2.1⟩

/-- C9: the 10-point guard of `getChangePointAnalysis` does not guard the
volatility divisor. On the concrete series `zPrices` both windows have 10
points, every before-window price equals 50, so the before-window standard
deviation is 0 and the volatility-change division's divisor is 0: the
analysis still succeeds but its `volatilityChange` is not a finite number
(modelled `none`). -/
theorem volatilityChange_not_finite :
    10 ≤ (beforeWindow zPrices (0 : ℚ) 90).length ∧
    10 ≤ (afterWindow zPrices (0 : ℚ) 90).length ∧
    (∀ p ∈ beforeWindow zPrices (0 : ℚ) 90, p.price = 50) ∧
    popStdDev (pricesOf (beforeWindow zPrices (0 : ℚ) 90)) = 0 ∧
    Option.map CPAnalysis.volatilityChange (getChangePointAnalysis zPrices ⟨0, 7/10⟩ 90) =
      some none := by
  have hwin : beforeWindow zPrices (0 : ℚ) 90 =
      (List.range 10).map (fun k => ⟨dayMs (-(k + 1 : ℤ)), 50⟩) := by
    norm_num [beforeWindow, zPrices, msPerDay, dayMs, List.filter_cons, List.range_succ]
  have hb : 10 ≤ (beforeWindow zPrices (0 : ℚ) 90).length := by
    rw [hwin]
    norm_num [List.range_succ]
  have ha : 10 ≤ (afterWindow zPrices (0 : ℚ) 90).length := by
    norm_num [afterWindow, zPrices, msPerDay, dayMs, List.filter_cons, List.range_succ]
  have hall : ∀ p ∈ beforeWindow zPrices (0 : ℚ) 90, p.price = 50 := by
    intro p hp
    rw [hwin] at hp
    simp only [List.mem_map] at hp
    obtain ⟨k, -, rfl⟩ := hp
    rfl
  have hvar : popVariance (pricesOf (beforeWindow zPrices (0 : ℚ) 90)) = 0 := by
    rw [hwin]
    norm_num [popVariance, mean, pricesOf, List.map_map, Function.comp, List.range_succ]
  have hstd : popStdDev (pricesOf (beforeWindow zPrices (0 : ℚ) 90)) = 0 := by
    rw [popStdDev, hvar]
    simp
  have hv0 : varOf (beforeWindow zPrices (0 : ℚ) 90) = 0 := by
    rw [varOf_eq]
    exact hvar
  refine ⟨hb, ha, hall, hstd, ?_⟩
  rw [getChangePointAnalysis_of_le zPrices ⟨0, 7/10⟩ 90 hb ha, Option.map_some']
  dsimp only
  rw [if_pos hv0]

/-- C8: for any threshold in [0,1], `getFilteredChangePoints` keeps exactly
the change points whose confidence is at least the threshold, preserving
their original order (the result is a sublist of the input), and the Min
Confidence selector offers exactly the thresholds 0.5, 0.6, 0.7, 0.8,
0.9. -/
theorem filteredChangePoints_spec :
    ∀ (cps : List ChangePoint) (t : ℚ), 0 ≤ t → t ≤ 1 →
      (∀ cp : ChangePoint,
        cp ∈ getFilteredChangePoints cps t ↔ cp ∈ cps ∧ t ≤ cp.confidence)
      ∧ (getFilteredChangePoints cps t).Sublist cps
      ∧ confidenceThresholdOptions = [1/2, 3/5, 7/10, 4/5, 9/10] := by
  intro cps t _ _
  refine ⟨?_, List.filter_sublist _, rfl⟩
  intro cp
  rw [getFilteredChangePoints, List.mem_filter]
  simp

/-- Witness for C8 at threshold 0.7 on a two-point list: the point of
confidence 0.75 passes the filter, characterized by the membership
equivalence. -/
theorem filteredChangePoints_spec_witness :
    0 ≤ (7/10 : ℚ) ∧ (7/10 : ℚ) ≤ 1 ∧
    ((⟨0, 3/4⟩ : ChangePoint) ∈
        getFilteredChangePoints [⟨0, 3/4⟩, ⟨1, 1/4⟩] (7/10) ↔
      (⟨0, 3/4⟩ : ChangePoint) ∈ [(⟨0, 3/4⟩ : ChangePoint), ⟨1, 1/4⟩] ∧
        (7/10 : ℚ) ≤ 3/4) := by
  refine ⟨by norm_num, by norm_num, ?_⟩
  exact (filteredChangePoints_spec [⟨0, 3/4⟩, ⟨1, 1/4⟩] (7/10)
    (by norm_num) (by norm_num)).1 ⟨0, 3/4⟩

/-- The first bin counter of the bump chain counts exactly the range
`[0.5, 0.6)`. -/
lemma bumpBin_bin0 (b : ConfBins) (c : ℚ) :
    (bumpBin b c).bin0 = b.bin0 + if 1/2 ≤ c ∧ c < 3/5 then 1 else 0 := by
  rw [bumpBin]
  split_ifs <;> simp_all

/-- The second bin counter of the bump chain counts exactly the range
`[0.6, 0.7)`. -/
lemma bumpBin_bin1 (b : ConfBins) (c : ℚ) :
    (bumpBin b c).bin1 = b.bin1 + if 3/5 ≤ c ∧ c < 7/10 then 1 else 0 := by
  rw [bumpBin]
  split_ifs <;> simp_all
  linarith

/-- The third bin counter of the bump chain counts exactly the range
`[0.7, 0.8)`. -/
lemma bumpBin_bin2 (b : ConfBins) (c : ℚ) :
    (bumpBin b c).bin2 = b.bin2 + if 7/10 ≤ c ∧ c < 4/5 then 1 else 0 := by
  rw [bumpBin]
  split_ifs <;> simp_all <;> linarith

/-- The fourth bin counter of the bump chain counts exactly the range
`[0.8, 0.9)`. -/
lemma bumpBin_bin3 (b : ConfBins) (c : ℚ) :
    (bumpBin b c).bin3 = b.bin3 + if 4/5 ≤ c ∧ c < 9/10 then 1 else 0 := by
  rw [bumpBin]
  split_ifs <;> simp_all <;> linarith

/-- The fifth bin counter of the bump chain counts exactly the range
`[0.9, ∞)` (the last branch has no upper bound). -/
lemma bumpBin_bin4 (b : ConfBins) (c : ℚ) :
    (bumpBin b c).bin4 = b.bin4 + if 9/10 ≤ c then 1 else 0 := by
  rw [bumpBin]
  split_ifs <;> simp_all <;> linarith

/-- The five range indicators sum to the `[0.5, ∞)` indicator: the ranges
partition `[0.5, ∞)`. -/
lemma indicator_sum (c : ℚ) :
    ((if 1/2 ≤ c ∧ c < 3/5 then 1 else 0) +
      (if 3/5 ≤ c ∧ c < 7/10 then 1 else 0) +
      (if 7/10 ≤ c ∧ c < 4/5 then 1 else 0) +
      (if 4/5 ≤ c ∧ c < 9/10 then 1 else 0) +
      (if 9/10 ≤ c then 1 else 0) : ℕ) =
    if 1/2 ≤ c then 1 else 0 := by
  by_cases h : 1/2 ≤ c
  · rw [if_pos h]
    by_cases h1 : c < 3/5
    · rw [if_pos ⟨h, h1⟩, if_neg (fun hc => absurd hc.1 (by linarith)),
        if_neg (fun hc => absurd hc.1 (by linarith)),
        if_neg (fun hc => absurd hc.1 (by linarith)),
        if_neg (fun hc => absurd hc (by linarith))]
    by_cases h2 : c < 7/10
    · rw [if_neg (fun hc => absurd hc.2 h1), if_pos ⟨by linarith, h2⟩,
        if_neg (fun hc => absurd hc.1 (by linarith)),
        if_neg (fun hc => absurd hc.1 (by linarith)),
        if_neg (fun hc => absurd hc (by linarith))]
    by_cases h3 : c < 4/5
    · rw [if_neg (fun hc => absurd hc.2 h1), if_neg (fun hc => absurd hc.2 h2),
        if_pos ⟨by linarith, h3⟩,
        if_neg (fun hc => absurd hc.1 (by linarith)),
        if_neg (fun hc => absurd hc (by linarith))]
    by_cases h4 : c < 9/10
    · rw [if_neg (fun hc => absurd hc.2 h1), if_neg (fun hc => absurd hc.2 h2),
        if_neg (fun hc => absurd hc.2 h3), if_pos ⟨by linarith, h4⟩,
        if_neg (fun hc => absurd hc (by linarith))]
    · rw [if_neg (fun hc => absurd hc.2 h1), if_neg (fun hc => absurd hc.2 h2),
        if_neg (fun hc => absurd hc.2 h3), if_neg (fun hc => absurd hc.2 h4),
        if_pos (by linarith)]
  · rw [if_neg h, if_neg (fun hc => absurd hc.1 h),
      if_neg (fun hc => absurd hc.1 (fun hle => h (by linarith))),
      if_neg (fun hc => absurd hc.1 (fun hle => h (by linarith))),
      if_neg (fun hc => absurd hc.1 (fun hle => h (by linarith))),
      if_neg (fun hle => h (by linarith))]

/-- The bump chain adds exactly one to the total count for a confidence of
at least 0.5, and nothing otherwise. -/
lemma binTotal_bumpBin (b : ConfBins) (c : ℚ) :
    binTotal (bumpBin b c) = binTotal b + if 1/2 ≤ c then 1 else 0 := by
  simp only [binTotal, bumpBin_bin0, bumpBin_bin1, bumpBin_bin2, bumpBin_bin3,
    bumpBin_bin4]
  rw [← indicator_sum c]
  omega

/-- Folding the bump chain accumulates, in any counter read off by `f` that
`bumpBin` bumps exactly on predicate `p`, the number of change points
satisfying `p`. -/
lemma foldl_bump_field (f : ConfBins → ℕ) (p : ℚ → Prop) [DecidablePred p]
    (hf : ∀ b c, f (bumpBin b c) = f b + if p c then 1 else 0) :
    ∀ (cps : List ChangePoint) (b : ConfBins),
      f (cps.foldl (fun acc cp => bumpBin acc cp.confidence) b) =
        f b + (cps.filter (fun cp => decide (p cp.confidence))).length := by
  intro cps
  induction cps with
  | nil =>
    intro b
    simp
  | cons cp t ih =>
    intro b
    rw [List.foldl_cons, ih, hf, List.filter_cons]
    by_cases h : p cp.confidence
    · rw [if_pos h, if_pos (decide_eq_true h), List.length_cons]
      omega
    · rw [if_neg h, if_neg (by simp [h])]
      omega

/-- C10: each of the five histogram bins of `getConfidenceDistribution`
counts exactly the change points in its left-closed confidence range; the
bin totals sum to the number of change points with confidence at least 0.5
(so points below 0.5 are silently omitted and the total is not the number
of all change points); the bump chain adds exactly one bin entry for any
confidence at least 0.5 and leaves the bins unchanged below 0.5. -/
theorem confidenceDistribution_bins :
    (∀ cps : List ChangePoint,
      (getConfidenceDistribution cps).bin0 =
        (cps.filter (fun cp =>
          decide (1/2 ≤ cp.confidence ∧ cp.confidence < 3/5))).length
      ∧ (getConfidenceDistribution cps).bin1 =
        (cps.filter (fun cp =>
          decide (3/5 ≤ cp.confidence ∧ cp.confidence < 7/10))).length
      ∧ (getConfidenceDistribution cps).bin2 =
        (cps.filter (fun cp =>
          decide (7/10 ≤ cp.confidence ∧ cp.confidence < 4/5))).length
      ∧ (getConfidenceDistribution cps).bin3 =
        (cps.filter (fun cp =>
          decide (4/5 ≤ cp.confidence ∧ cp.confidence < 9/10))).length
      ∧ (getConfidenceDistribution cps).bin4 =
        (cps.filter (fun cp => decide (9/10 ≤ cp.confidence))).length
      ∧ binTotal (getConfidenceDistribution cps) =
        (cps.filter (fun cp => decide (1/2 ≤ cp.confidence))).length)
    ∧ (∀ (b : ConfBins) (c : ℚ), 1/2 ≤ c →
        binTotal (bumpBin b c) = binTotal b + 1)
    ∧ (∀ (b : ConfBins) (c : ℚ), c < 1/2 → bumpBin b c = b) := by
  refine ⟨?_, ?_, ?_⟩
  · intro cps
    refine ⟨?_, ?_, ?_, ?_, ?_, ?_⟩
    · simpa using foldl_bump_field ConfBins.bin0 _ bumpBin_bin0 cps ⟨0, 0, 0, 0, 0⟩
    · simpa using foldl_bump_field ConfBins.bin1 _ bumpBin_bin1 cps ⟨0, 0, 0, 0, 0⟩
    · simpa using foldl_bump_field ConfBins.bin2 _ bumpBin_bin2 cps ⟨0, 0, 0, 0, 0⟩
    · simpa using foldl_bump_field ConfBins.bin3 _ bumpBin_bin3 cps ⟨0, 0, 0, 0, 0⟩
    · simpa using foldl_bump_field ConfBins.bin4 _ bumpBin_bin4 cps ⟨0, 0, 0, 0, 0⟩
    · simpa [binTotal] using
        foldl_bump_field binTotal _ binTotal_bumpBin cps ⟨0, 0, 0, 0, 0⟩
  · intro b c h
    rw [binTotal_bumpBin, if_pos h]
  · intro b c h
    rw [bumpBin, if_neg (fun hc => absurd hc.1 (by linarith)),
      if_neg (fun hc => absurd hc.1 (by linarith)),
      if_neg (fun hc => absurd hc.1 (by linarith)),
      if_neg (fun hc => absurd hc.1 (by linarith)),
      if_neg (by intro hc; linarith)]

/-- Witness for C10: a confidence of 0.75 adds exactly one bin entry, and a
confidence of 0.25 leaves the bins unchanged. -/
theorem confidenceDistribution_bins_witness :
    (1/2 : ℚ) ≤ 3/4 ∧
    binTotal (bumpBin ⟨0, 0, 0, 0, 0⟩ (3/4)) = binTotal ⟨0, 0, 0, 0, 0⟩ + 1 ∧
    (1/4 : ℚ) < 1/2 ∧
    bumpBin ⟨0, 0, 0, 0, 0⟩ (1/4) = ⟨0, 0, 0, 0, 0⟩ := by
  refine ⟨by norm_num, ?_, by norm_num, ?_⟩
  · exact confidenceDistribution_bins.2.1 ⟨0, 0, 0, 0, 0⟩ (3/4) (by norm_num)
  · exact confidenceDistribution_bins.2.2 ⟨0, 0, 0, 0, 0⟩ (1/4) (by norm_num)
